import Mathlib

/-!
Verification of the core video-processing pipeline of `azure-ai-work-inspector`
(`apps/utils/video_processor.py`, `apps/utils/result_manager.py`,
`apps/utils/azure_services.py`, `apps/app.py`) against its specification.

The Python source is shallowly embedded: pure functions become Lean
functions, Python exceptions become `Except`/`Option` results, Python float
arithmetic on timestamps is modelled exactly over `ℚ`, the external
collaborators (blob upload, the two GPT calls) become function parameters
returning `Except`, and the two mutable accumulators of
`process_video_with_history` (`history`, `all_metadata`) become an explicit
state record threaded through a fold.
-/

/-- The last `n` elements of a list (all of it when it is shorter), in order.
Used to describe the contents of a `collections.deque(maxlen=n)`. -/
def lastN (n : Nat) (l : List α) : List α := l.drop (l.length - n)

/-- Appending one element to a `collections.deque(maxlen = n)` holding `h`:
the element goes to the right end and, if the capacity is now exceeded,
elements are evicted from the left end. -/
def dequeAppend (n : Nat) (h : List α) (x : α) : List α :=
  let h1 := h ++ [x]
  if n < h1.length then h1.drop (h1.length - n) else h1

theorem lastN_of_length_le (l : List α) (hn : l.length ≤ n) : lastN n l = l := by
  simp [lastN, Nat.sub_eq_zero_of_le hn]

theorem lastN_length (n : Nat) (l : List α) : (lastN n l).length = min n l.length := by
  simp [lastN]
  omega

theorem dequeAppend_eq_lastN (n : Nat) (h : List α) (x : α) :
    dequeAppend n h x = lastN n (h ++ [x]) := by
  unfold dequeAppend lastN
  by_cases hlt : n < (h ++ [x]).length
  · rw [if_pos hlt]
  · rw [if_neg hlt]
    have h0 : (h ++ [x]).length - n = 0 := by
      simp only [List.length_append, List.length_singleton] at hlt ⊢
      omega
    rw [h0, List.drop_zero]

theorem lastN_append_absorb (n : Nat) (l l2 : List α) :
    lastN n (lastN n l ++ l2) = lastN n (l ++ l2) := by
  unfold lastN
  rcases le_or_lt l.length n with hle | hlt
  · rw [Nat.sub_eq_zero_of_le hle, List.drop_zero]
  · have hlen : (l.drop (l.length - n)).length = n := by
      rw [List.length_drop]; omega
    rw [List.drop_append_eq_append_drop, List.drop_append_eq_append_drop]
    have h1 : (l.drop (l.length - n) ++ l2).length - n - (l.drop (l.length - n)).length
        = (l ++ l2).length - n - l.length := by
      simp [List.length_append, hlen]; omega
    rw [h1]
    congr 1
    rw [List.drop_drop]
    congr 1
    simp [List.length_append, hlen]
    omega

/-!
## Chunk partitioner (`chunkify`, video_processor.py lines 51-63)

```python
def chunkify(lst, chunk_size=5):
    for i in range(0, len(lst), chunk_size):
        yield lst[i:i+chunk_size]
```

`range(0, n, step)` raises `ValueError` when `step == 0` (modelled as
`none`); for `step < 0` and `n = len(lst) >= 0` it is empty, so the
generator yields nothing (modelled as `some []`).  For `step > 0` the yield
of the slices `lst[i:i+chunk_size]` at `i = 0, chunk_size, 2*chunk_size, ...`
is transliterated recursively: the slice at the current offset is
`take chunk_size` of the remainder and the rest of the loop runs on
`drop chunk_size` of the remainder.
-/

/-- The positive-step loop body of `chunkify`: yield `lst[i:i+c]` for
`i = 0, c, 2c, ...` while `i < len(lst)`, written as head-slice plus
recursion on the dropped remainder. -/
def chunkifyGo : List α → Nat → List (List α)
  | [], _ => []
  | x :: xs, c => (x :: xs.take (c - 1)) :: chunkifyGo (xs.drop (c - 1)) c
termination_by l _ => l.length
decreasing_by
  simp only [List.length_drop, List.length_cons]
  omega

/-- Model of `chunkify(lst, chunk_size)`, including Python's `range` behaviour at
non-positive step: `none` models the `ValueError` raised for step 0, and a
negative step makes `range(0, len(lst), step)` empty, so no chunk is ever
yielded. -/
def chunkify (lst : List α) (chunk_size : Int) : Option (List (List α)) :=
  if chunk_size = 0 then none
  else if chunk_size < 0 then some []
  else some (chunkifyGo lst chunk_size.toNat)

theorem chunkifyGo_cons (x : α) (xs : List α) (c : Nat) (hc : 0 < c) :
    chunkifyGo (x :: xs) c = (x :: xs).take c :: chunkifyGo ((x :: xs).drop c) c := by
  rw [chunkifyGo]
  obtain ⟨c', rfl⟩ : ∃ c', c = c' + 1 := ⟨c - 1, by omega⟩
  simp

theorem chunkifyGo_flatten (lst : List α) (c : Nat) : (chunkifyGo lst c).flatten = lst := by
  induction lst, c using chunkifyGo.induct with
  | case1 c => simp [chunkifyGo]
  | case2 x xs c ih =>
    rw [chunkifyGo]
    simp only [List.flatten_cons, List.cons_append]
    rw [ih, List.take_append_drop]

theorem chunkifyGo_getElem? (lst : List α) (c : Nat) (hc : 0 < c) (k : Nat) :
    (chunkifyGo lst c)[k]? =
      if k * c < lst.length then some ((lst.drop (k * c)).take c) else none := by
  induction k generalizing lst with
  | zero =>
    cases lst with
    | nil => simp [chunkifyGo]
    | cons x xs => rw [chunkifyGo_cons x xs c hc]; simp
  | succ k ih =>
    cases lst with
    | nil => simp [chunkifyGo]
    | cons x xs =>
      rw [chunkifyGo_cons x xs c hc]
      simp only [List.getElem?_cons_succ]
      rw [ih ((x :: xs).drop c), List.drop_drop]
      have h1 : c + k * c = (k + 1) * c := by ring
      have h2 : ((x :: xs).drop c).length = (x :: xs).length - c := by
        simp
      rw [h1, h2]
      by_cases hk : (k + 1) * c < (x :: xs).length
      · rw [if_pos hk, if_pos (by omega)]
      · rw [if_neg hk, if_neg (by omega)]

/-- Claim C6 (amended): for every list and every positive chunk size `C`,
`chunkify` partitions the list contiguously — chunk `k` is the slice
`[k*C, min((k+1)*C, total))`, every chunk except possibly the last has
length exactly `C`, every chunk (the last included) is non-empty and no
longer than `C`, and concatenating the chunks reproduces the input exactly.
It is a pure function, hence deterministic.  A chunk size of zero is
rejected (`range` raises `ValueError`), but a negative chunk size is NOT
rejected: `range(0, len(lst), C)` is then empty and `chunkify` silently
yields no chunks at all. -/
theorem chunkify_partition (lst : List α) (C : Int) :
    chunkify lst 0 = none ∧
    (C < 0 → chunkify lst C = some []) ∧
    (0 < C →
      ∃ chunks, chunkify lst C = some chunks ∧
        chunks.flatten = lst ∧
        (∀ k : Nat, chunks[k]? =
          if k * C.toNat < lst.length then
            some ((lst.drop (k * C.toNat)).take C.toNat) else none) ∧
        (∀ ch ∈ chunks, ch ≠ [] ∧ ch.length ≤ C.toNat) ∧
        (∀ k : Nat, k + 1 < chunks.length →
          ∃ ch, chunks[k]? = some ch ∧ ch.length = C.toNat)) := by
  refine ⟨by simp [chunkify], fun hneg => ?_, fun hpos => ?_⟩
  · have h0 : C ≠ 0 := by omega
    simp [chunkify, h0, hneg]
  · have h0 : C ≠ 0 := by omega
    have h1 : ¬ C < 0 := by omega
    have hc : 0 < C.toNat := by omega
    refine ⟨chunkifyGo lst C.toNat, by simp [chunkify, h0, h1], chunkifyGo_flatten lst _,
      fun k => chunkifyGo_getElem? lst C.toNat hc k, fun ch hch => ?_, fun k hk => ?_⟩
    · obtain ⟨k, hk⟩ := List.mem_iff_getElem?.mp hch
      rw [chunkifyGo_getElem? lst C.toNat hc k] at hk
      by_cases hlt : k * C.toNat < lst.length
      · rw [if_pos hlt] at hk
        obtain rfl : (lst.drop (k * C.toNat)).take C.toNat = ch := by
          exact Option.some_injective _ hk
        constructor
        · have hlen : ((lst.drop (k * C.toNat)).take C.toNat).length
              = min C.toNat (lst.length - k * C.toNat) := by
            simp
          intro hnil
          rw [hnil] at hlen
          simp at hlen
          omega
        · simp
      · rw [if_neg hlt] at hk; exact absurd hk (by simp)
    · have hk1 : (chunkifyGo lst C.toNat)[k + 1]?.isSome := by
        rw [List.getElem?_eq_getElem hk]; simp
      rw [chunkifyGo_getElem? lst C.toNat hc (k + 1)] at hk1
      by_cases hlt1 : (k + 1) * C.toNat < lst.length
      · have hmul : (k + 1) * C.toNat = k * C.toNat + C.toNat := by ring
        have hltk : k * C.toNat < lst.length := by omega
        refine ⟨(lst.drop (k * C.toNat)).take C.toNat, ?_, ?_⟩
        · rw [chunkifyGo_getElem? lst C.toNat hc k, if_pos hltk]
        · simp only [List.length_take, List.length_drop]
          omega
      · rw [if_neg hlt1] at hk1
        simp at hk1

/-- Claim C6 counterexample: a negative chunk size is not rejected by
`chunkify` — `chunkify [1] (-1)` yields an empty chunk sequence (Python
`range(0, 1, -1)` is empty), so the concatenation of all chunks does not
reproduce the input list. -/
theorem chunkify_negative_not_rejected :
    chunkify [(1 : Nat)] (-1) = some [] ∧ ([] : List (List Nat)).flatten ≠ [1] := by
  decide

/-- Witness for `chunkify_partition` at the concrete list `[10,20,30,40,50]`
and chunk size 2 (chunks `[10,20] [30,40] [50]`). -/
theorem chunkify_partition_witness :
    ∃ chunks, chunkify [(10 : Nat), 20, 30, 40, 50] (2 : Int) = some chunks ∧
      chunks.flatten = [10, 20, 30, 40, 50] ∧
      (∀ k : Nat, chunks[k]? =
        if k * (2 : Int).toNat < [(10 : Nat), 20, 30, 40, 50].length then
          some (([(10 : Nat), 20, 30, 40, 50].drop (k * (2 : Int).toNat)).take (2 : Int).toNat)
        else none) ∧
      (∀ ch ∈ chunks, ch ≠ [] ∧ ch.length ≤ (2 : Int).toNat) ∧
      (∀ k : Nat, k + 1 < chunks.length →
        ∃ ch, chunks[k]? = some ch ∧ ch.length = (2 : Int).toNat) :=
  (chunkify_partition [(10 : Nat), 20, 30, 40, 50] 2).2.2 (by decide)

/-!
## Frame sampler (`extract_and_save_frames`, video_processor.py lines 9-49)

```python
cap = cv2.VideoCapture(video_path)
fps = cap.get(cv2.CAP_PROP_FPS)
...
frame_number = 0
while True:
    ret, frame = cap.read()
    if not ret:
        break
    current_time = frame_number / fps
    if current_time % interval < 1.0 / fps:
        frame_filename = f"{video_filename}_frame_{frame_number}.jpg"
        frame_filepath = os.path.join(output_dir, frame_filename)
        cv2.imwrite(frame_filepath, frame)
        saved_frames.append((frame_filepath, frame_number, current_time))
    frame_number += 1
```

The decoded video is abstracted to the number of frames the decoder yields
(`numFrames`) together with the reported frame rate `fps`; timestamps and
the modulo test are modelled exactly over `ℚ` (Python `x % y` on floats
with `y > 0` is `x - y * floor(x / y)`).  Python raises `ZeroDivisionError`
for `frame_number / fps` when `fps == 0.0` and for `current_time % interval`
when `interval == 0`, modelled as `Except.error`.
-/

/-- One saved tuple `(frame_path, frame_number, timestamp)`. -/
structure SavedFrame where
  path : String
  frame_number : Nat
  timestamp : ℚ
deriving DecidableEq

/-- Python `x % y` for `y ≠ 0` (sign of the result follows `y`;
for `y > 0` this is the non-negative remainder). -/
def pyMod (x y : ℚ) : ℚ := x - y * ⌊x / y⌋

/-- The emission test of the sampler: `current_time % interval < 1.0 / fps`
for the frame with decode index `n`. -/
def emitB (fps interval : ℚ) (n : Nat) : Bool :=
  pyMod ((n : ℚ) / fps) interval < 1 / fps

/-- The saved tuple for decode index `n`. -/
def mkSavedFrame (output_dir video_filename : String) (fps : ℚ) (n : Nat) : SavedFrame :=
  { path := output_dir ++ "/" ++ video_filename ++ "_frame_" ++ toString n ++ ".jpg"
    frame_number := n
    timestamp := (n : ℚ) / fps }

/-- The `while` loop of `extract_and_save_frames`, over the list of decode
indices still to be read.  Division by a zero `fps` (and a zero `interval`
in the modulo) raises `ZeroDivisionError`. -/
def extractGo (output_dir video_filename : String) (fps interval : ℚ) :
    List Nat → Except String (List SavedFrame)
  | [] => .ok []
  | n :: ns =>
    if fps = 0 then .error "ZeroDivisionError"
    else if interval = 0 then .error "ZeroDivisionError"
    else do
      let rest ← extractGo output_dir video_filename fps interval ns
      if emitB fps interval n then
        .ok (mkSavedFrame output_dir video_filename fps n :: rest)
      else
        .ok rest

/-- Model of `extract_and_save_frames`: the decoder yields `numFrames` frames with
decode indices `0, 1, ..., numFrames - 1`. -/
def extract_and_save_frames (output_dir video_filename : String) (numFrames : Nat)
    (fps interval : ℚ) : Except String (List SavedFrame) :=
  extractGo output_dir video_filename fps interval (List.range numFrames)

theorem extractGo_ok (output_dir video_filename : String) (fps interval : ℚ)
    (hf : fps ≠ 0) (hi : interval ≠ 0) (ns : List Nat) :
    extractGo output_dir video_filename fps interval ns =
      .ok ((ns.filter (emitB fps interval)).map (mkSavedFrame output_dir video_filename fps)) := by
  induction ns with
  | nil => rfl
  | cons n ns ih =>
    rw [extractGo, if_neg hf, if_neg hi]
    rw [List.filter_cons]
    by_cases he : emitB fps interval n
    · simp [ih, he, Bind.bind, Except.bind]
    · simp [ih, he, Bind.bind, Except.bind]


theorem emit_slot_lt (fps T : ℚ) (hf : 0 < fps) (hT : 0 < T) {n m : Nat} (hnm : n < m)
    (hn : emitB fps T n = true) (hm : emitB fps T m = true) :
    ⌊((n : ℚ) / fps) / T⌋ < ⌊((m : ℚ) / fps) / T⌋ := by
  simp only [emitB, decide_eq_true_eq] at hn hm
  have hcast : (n : ℚ) + 1 ≤ (m : ℚ) := by exact_mod_cast hnm
  have htnm : (n : ℚ) / fps ≤ (m : ℚ) / fps := by gcongr
  have hfl : ⌊((n : ℚ) / fps) / T⌋ ≤ ⌊((m : ℚ) / fps) / T⌋ := by
    apply Int.floor_le_floor
    gcongr
  rcases lt_or_eq_of_le hfl with hlt | heq
  · exact hlt
  · exfalso
    set k : ℤ := ⌊((n : ℚ) / fps) / T⌋ with hk
    have hnlo : (k : ℚ) * T ≤ (n : ℚ) / fps :=
      (le_div_iff₀ hT).mp (Int.floor_le (((n : ℚ) / fps) / T))
    have hnhi : (n : ℚ) / fps - T * k < 1 / fps := by
      unfold pyMod at hn
      rw [← hk] at hn
      exact hn
    have hmhi : (m : ℚ) / fps - T * k < 1 / fps := by
      unfold pyMod at hm
      rw [← heq] at hm
      exact hm
    have hgap : 1 / fps ≤ (m : ℚ) / fps - (n : ℚ) / fps := by
      rw [div_sub_div_same]
      gcongr
      linarith
    linarith

/-- Claim C3: with a positive frame rate and a positive interval `T`, the
frame sampler succeeds and the emitted frames are pairwise ordered: both the
decode index (`frame_number`) and the slot index `floor(timestamp / T)` are
strictly increasing along the emitted sequence — in particular no two
emitted frames share a slot index, i.e. at most one frame is emitted per
time slot.  (Timestamps are `frame_number / fps`, modelled exactly over
`ℚ`.) -/
theorem slot_strictly_increasing (output_dir video_filename : String) (numFrames : Nat)
    (fps interval : ℚ) (hf : 0 < fps) (hT : 0 < interval) :
    ∃ l, extract_and_save_frames output_dir video_filename numFrames fps interval = .ok l ∧
      l.Pairwise (fun a b => a.frame_number < b.frame_number ∧
        ⌊a.timestamp / interval⌋ < ⌊b.timestamp / interval⌋) := by
  refine ⟨_, extractGo_ok output_dir video_filename fps interval
    (ne_of_gt hf) (ne_of_gt hT) (List.range numFrames), ?_⟩
  rw [List.pairwise_map]
  have hp : ((List.range numFrames).filter (emitB fps interval)).Pairwise (· < ·) :=
    (List.pairwise_lt_range numFrames).filter _
  refine hp.imp_of_mem ?_
  intro a b ha hb hab
  exact ⟨hab, emit_slot_lt fps interval hf hT hab
    (List.mem_filter.mp ha).2 (List.mem_filter.mp hb).2⟩

/-- Witness for `slot_strictly_increasing`: 6 decoded frames at 1 frame per
second sampled with a 2-second interval (frames 0, 2, 4 are emitted, in
slots 0, 1, 2). -/
theorem slot_strictly_increasing_witness :
    ∃ l, extract_and_save_frames "out" "v.mp4" 6 1 2 = .ok l ∧
      l.Pairwise (fun a b => a.frame_number < b.frame_number ∧
        ⌊a.timestamp / 2⌋ < ⌊b.timestamp / 2⌋) :=
  slot_strictly_increasing "out" "v.mp4" 6 1 2 (by norm_num) (by norm_num)

/-- Claim C7 counterexample: a reported frame rate of zero is not handled —
with one decoded frame, `current_time = frame_number / fps` raises
`ZeroDivisionError` on the very first frame instead of falling back to a
nominal rate such as 30. -/
theorem zero_fps_raises_cex :
    extract_and_save_frames "out" "v.mp4" 1 0 2 = .error "ZeroDivisionError" := by
  rfl

/-- Claim C7 (amended): the sampler has no fallback for a zero frame rate —
whenever the decoder yields at least one frame and `fps = 0`, the timestamp
computation `frame_number / fps` raises `ZeroDivisionError` (for any
interval); only a video with zero decodable frames escapes the division and
returns the empty frame list. -/
theorem zero_fps_zero_division (output_dir video_filename : String) (numFrames : Nat)
    (interval : ℚ) (hpos : 0 < numFrames) :
    extract_and_save_frames output_dir video_filename numFrames 0 interval
      = .error "ZeroDivisionError" ∧
    extract_and_save_frames output_dir video_filename 0 0 interval = .ok [] := by
  constructor
  · obtain ⟨n, rfl⟩ : ∃ n, numFrames = n + 1 := ⟨numFrames - 1, by omega⟩
    rw [extract_and_save_frames, List.range_succ_eq_map, extractGo]
    simp
  · rfl

/-- Witness for `zero_fps_zero_division` at 3 decoded frames and interval 5. -/
theorem zero_fps_zero_division_witness :
    extract_and_save_frames "out" "v.mp4" 3 0 5 = .error "ZeroDivisionError" ∧
    extract_and_save_frames "out" "v.mp4" 0 0 5 = .ok [] :=
  zero_fps_zero_division "out" "v.mp4" 3 5 (by decide)

/-!
## History-aware pipeline (`process_video_with_history`, video_processor.py
lines 150-211)

```python
history = collections.deque(maxlen=5)
all_metadata = []
for chunk in frame_chunks:
    image_infos = []
    for frame_filepath, frame_number, timestamp in chunk:
        blob_url, sas_token = upload_to_blob(frame_filepath, f"images/{os.path.basename(frame_filepath)}")
        image_infos.append({"url": f"{blob_url}?{sas_token}", "frame_number": frame_number, "timestamp": timestamp})
    caption = create_caption_by_gpt_with_history(image_infos, list(history), task_name)
    chunk_meta = {"video_filename": video_filename, "frames": [...], "chunk_caption": caption}
    history.append(caption)
    all_metadata.append(chunk_meta)
```

The two external collaborators `upload_to_blob` and
`create_caption_by_gpt_with_history` are parameters returning `Except`
(`.error` models a raised exception).  The loop body mutates `history` and
`all_metadata` only after both external calls have returned, so a raised
exception leaves both untouched; the exception then propagates out of the
`for` loop, aborting the whole run.  This is mirrored by `processChunk`
returning either the next state or the error, and by
`processChunksWithHistory` stopping at the first error and returning the
state reached so far.

Metadata dictionaries are modelled with `Option` on exactly the keys that
`save_final_report` later removes with `dict.pop` (`none` = key absent).
-/

/-- One element of `image_infos`. -/
structure ImageInfo where
  url : String
  frame_number : Nat
  timestamp : ℚ
deriving DecidableEq

/-- One frame descriptor inside a chunk's metadata; `frame_number` and
`frame_url_with_sas` are `Option` because `save_final_report` pops them. -/
structure FrameDict where
  frame_number : Option Nat
  timestamp : ℚ
  frame_url_with_sas : Option String
deriving DecidableEq

/-- One `chunk_meta` dictionary; `video_filename` is `Option` because
`save_final_report` pops it. -/
structure ChunkDict where
  video_filename : Option String
  frames : List FrameDict
  chunk_caption : String
deriving DecidableEq

/-- Model of `os.path.basename` for the forward-slash paths built by this code: the
suffix after the last `/`. -/
def baseName (s : String) : String :=
  String.mk ((s.data.reverse.takeWhile (fun c => c ≠ '/')).reverse)

deriving instance DecidableEq for Except

/-- The run state of `process_video_with_history`: the caption deque and the
accumulated metadata list. -/
structure PState where
  history : List String
  all_metadata : List ChunkDict
deriving DecidableEq

/-- The state at the start of a run: `deque(maxlen=5)` empty, `all_metadata = []`. -/
def initState : PState := ⟨[], []⟩

/-- The inner `for` loop over one chunk's frames: upload each frame and
collect its `image_infos` entry; the first failed upload raises. -/
def materialize (upload : String → String → Except String (String × String)) :
    List (String × Nat × ℚ) → Except String (List ImageInfo)
  | [] => .ok []
  | (frame_filepath, frame_number, timestamp) :: rest => do
    let (blob_url, sas_token) ← upload frame_filepath ("images/" ++ baseName frame_filepath)
    let more ← materialize upload rest
    .ok ({ url := blob_url ++ "?" ++ sas_token
           frame_number := frame_number
           timestamp := timestamp } :: more)

/-- The `chunk_meta` dictionary compiled for one chunk. -/
def chunkMeta (video_filename : String) (image_infos : List ImageInfo)
    (caption : String) : ChunkDict :=
  { video_filename := some video_filename
    frames := image_infos.map (fun info =>
      { frame_number := some info.frame_number
        timestamp := info.timestamp
        frame_url_with_sas := some info.url })
    chunk_caption := caption }

/-- The two appends at the end of a successful loop iteration:
`history.append(caption)` (deque with maxlen 5) and
`all_metadata.append(chunk_meta)`. -/
def stepState (video_filename : String) (st : PState) (image_infos : List ImageInfo)
    (caption : String) : PState :=
  { history := dequeAppend 5 st.history caption
    all_metadata := st.all_metadata ++ [chunkMeta video_filename image_infos caption] }

/-- One iteration of the chunk loop: materialize the chunk's frames, call
the captioner on the snapshot `list(history)`, then perform the two appends.
Any raised exception leaves the state unchanged (the appends come last). -/
def processChunk (upload : String → String → Except String (String × String))
    (create_caption : List ImageInfo → List String → String → Except String String)
    (task_name video_filename : String) (st : PState) (chunk : List (String × Nat × ℚ)) :
    Except String PState := do
  let image_infos ← materialize upload chunk
  let caption ← create_caption image_infos st.history task_name
  .ok (stepState video_filename st image_infos caption)

/-- The chunk loop of `process_video_with_history`: chunks are processed
strictly sequentially; the first raised exception aborts the loop and
propagates, returning the state reached after the last successful chunk. -/
def processChunksWithHistory (upload : String → String → Except String (String × String))
    (create_caption : List ImageInfo → List String → String → Except String String)
    (task_name video_filename : String) :
    List (List (String × Nat × ℚ)) → PState → PState × Option String
  | [], st => (st, none)
  | chunk :: rest, st =>
    match processChunk upload create_caption task_name video_filename st chunk with
    | .ok st1 => processChunksWithHistory upload create_caption task_name video_filename rest st1
    | .error e => (st, some e)

/-- The history snapshots (`list(history)` arguments) passed to
`create_caption_by_gpt_with_history`, in the order the calls are issued: a
call is issued for a chunk only once all its uploads succeeded, and no
further call is issued after a raised exception. -/
def captionCalls (upload : String → String → Except String (String × String))
    (create_caption : List ImageInfo → List String → String → Except String String)
    (task_name video_filename : String) :
    List (List (String × Nat × ℚ)) → PState → List (List String)
  | [], _ => []
  | chunk :: rest, st =>
    match materialize upload chunk with
    | .error _ => []
    | .ok image_infos =>
      st.history ::
        match create_caption image_infos st.history task_name with
        | .error _ => []
        | .ok caption =>
          captionCalls upload create_caption task_name video_filename rest
            (stepState video_filename st image_infos caption)

theorem dequeAppend_length_le (n : Nat) (h : List α) (x : α) (hh : h.length ≤ n) :
    (dequeAppend n h x).length ≤ n := by
  unfold dequeAppend
  by_cases hlt : n < (h ++ [x]).length
  · rw [if_pos hlt]
    simp only [List.length_drop, List.length_append, List.length_singleton]
    omega
  · rw [if_neg hlt]
    simp only [List.length_append, List.length_singleton] at hlt ⊢
    omega

section PipelineLemmas

variable (upload : String → String → Except String (String × String))
variable (create_caption : List ImageInfo → List String → String → Except String String)
variable (task_name video_filename : String)

theorem processChunk_ok_elim {st st' : PState} {chunk : List (String × Nat × ℚ)}
    (h : processChunk upload create_caption task_name video_filename st chunk = .ok st') :
    ∃ image_infos caption, materialize upload chunk = .ok image_infos ∧
      create_caption image_infos st.history task_name = .ok caption ∧
      st' = stepState video_filename st image_infos caption := by
  unfold processChunk at h
  cases hmat : materialize upload chunk with
  | error e => rw [hmat] at h; simp [Bind.bind, Except.bind] at h
  | ok infos =>
    rw [hmat] at h
    simp only [Bind.bind, Except.bind] at h
    cases hcap : create_caption infos st.history task_name with
    | error e => rw [hcap] at h; simp at h
    | ok cap =>
      rw [hcap] at h
      simp only [Except.ok.injEq] at h
      exact ⟨infos, cap, rfl, hcap, h.symm⟩

theorem run_cons_ok {st st1 : PState} {chunk : List (String × Nat × ℚ)}
    {rest : List (List (String × Nat × ℚ))}
    (h : processChunk upload create_caption task_name video_filename st chunk = .ok st1) :
    processChunksWithHistory upload create_caption task_name video_filename (chunk :: rest) st
      = processChunksWithHistory upload create_caption task_name video_filename rest st1 := by
  simp [processChunksWithHistory, h]

theorem run_cons_err {st : PState} {chunk : List (String × Nat × ℚ)}
    {rest : List (List (String × Nat × ℚ))} {e : String}
    (h : processChunk upload create_caption task_name video_filename st chunk = .error e) :
    processChunksWithHistory upload create_caption task_name video_filename (chunk :: rest) st
      = (st, some e) := by
  simp [processChunksWithHistory, h]

theorem run_append_ok {as bs : List (List (String × Nat × ℚ))} {st0 sta : PState}
    (h : processChunksWithHistory upload create_caption task_name video_filename as st0
      = (sta, none)) :
    processChunksWithHistory upload create_caption task_name video_filename (as ++ bs) st0
      = processChunksWithHistory upload create_caption task_name video_filename bs sta := by
  induction as generalizing st0 with
  | nil =>
    simp only [processChunksWithHistory, Prod.mk.injEq] at h
    rw [List.nil_append, h.1]
  | cons a as ih =>
    rw [List.cons_append]
    cases hpc : processChunk upload create_caption task_name video_filename st0 a with
    | ok st1 =>
      rw [run_cons_ok upload create_caption task_name video_filename hpc] at h ⊢
      exact ih h
    | error e =>
      rw [run_cons_err upload create_caption task_name video_filename hpc] at h
      simp at h

theorem run_append_ok_split {as bs : List (List (String × Nat × ℚ))} {st0 st : PState}
    (h : processChunksWithHistory upload create_caption task_name video_filename (as ++ bs) st0
      = (st, none)) :
    ∃ sta, processChunksWithHistory upload create_caption task_name video_filename as st0
        = (sta, none) ∧
      processChunksWithHistory upload create_caption task_name video_filename bs sta
        = (st, none) := by
  induction as generalizing st0 with
  | nil => exact ⟨st0, rfl, h⟩
  | cons a as ih =>
    rw [List.cons_append] at h
    cases hpc : processChunk upload create_caption task_name video_filename st0 a with
    | ok st1 =>
      rw [run_cons_ok upload create_caption task_name video_filename hpc] at h
      obtain ⟨sta, h1, h2⟩ := ih h
      refine ⟨sta, ?_, h2⟩
      rw [run_cons_ok upload create_caption task_name video_filename hpc]
      exact h1
    | error e =>
      rw [run_cons_err upload create_caption task_name video_filename hpc] at h
      simp at h

theorem run_ok_inv {cs : List (List (String × Nat × ℚ))} {st0 st : PState}
    (h5 : st0.history.length ≤ 5)
    (hrun : processChunksWithHistory upload create_caption task_name video_filename cs st0
      = (st, none)) :
    ∃ recs, st.all_metadata = st0.all_metadata ++ recs ∧ recs.length = cs.length ∧
      st.history = lastN 5 (st0.history ++ recs.map (fun r => r.chunk_caption)) ∧
      st.history.length ≤ 5 := by
  induction cs generalizing st0 with
  | nil =>
    simp only [processChunksWithHistory, Prod.mk.injEq] at hrun
    obtain ⟨rfl, -⟩ := hrun
    exact ⟨[], by simp, rfl, by rw [List.map_nil, List.append_nil,
      lastN_of_length_le st0.history h5], h5⟩
  | cons ch cs ih =>
    cases hpc : processChunk upload create_caption task_name video_filename st0 ch with
    | error e =>
      rw [run_cons_err upload create_caption task_name video_filename hpc] at hrun
      simp at hrun
    | ok st1 =>
      rw [run_cons_ok upload create_caption task_name video_filename hpc] at hrun
      obtain ⟨infos, cap, hmat, hcap, rfl⟩ :=
        processChunk_ok_elim upload create_caption task_name video_filename hpc
      have h5' : (stepState video_filename st0 infos cap).history.length ≤ 5 :=
        dequeAppend_length_le 5 st0.history cap h5
      obtain ⟨recs, hm, hl, hh, hhl⟩ := ih h5' hrun
      refine ⟨chunkMeta video_filename infos cap :: recs, ?_, by simp [hl], ?_, hhl⟩
      · rw [hm]
        simp [stepState]
      · rw [hh]
        have hstep : (stepState video_filename st0 infos cap).history
            = lastN 5 (st0.history ++ [cap]) := dequeAppend_eq_lastN 5 st0.history cap
        rw [hstep, lastN_append_absorb]
        congr 1
        simp [chunkMeta]

theorem captionCalls_cons_ok {st st1 : PState} {chunk : List (String × Nat × ℚ)}
    {rest : List (List (String × Nat × ℚ))}
    (h : processChunk upload create_caption task_name video_filename st chunk = .ok st1) :
    captionCalls upload create_caption task_name video_filename (chunk :: rest) st
      = st.history :: captionCalls upload create_caption task_name video_filename rest st1 := by
  obtain ⟨infos, cap, hmat, hcap, rfl⟩ :=
    processChunk_ok_elim upload create_caption task_name video_filename h
  simp [captionCalls, hmat, hcap]

theorem captionCalls_length_ok {cs : List (List (String × Nat × ℚ))} {st0 st : PState}
    (hrun : processChunksWithHistory upload create_caption task_name video_filename cs st0
      = (st, none)) :
    (captionCalls upload create_caption task_name video_filename cs st0).length = cs.length := by
  induction cs generalizing st0 with
  | nil => rfl
  | cons ch cs ih =>
    cases hpc : processChunk upload create_caption task_name video_filename st0 ch with
    | error e =>
      rw [run_cons_err upload create_caption task_name video_filename hpc] at hrun
      simp at hrun
    | ok st1 =>
      rw [run_cons_ok upload create_caption task_name video_filename hpc] at hrun
      rw [captionCalls_cons_ok upload create_caption task_name video_filename hpc]
      simp [ih hrun]

theorem captionCalls_append_ok {as bs : List (List (String × Nat × ℚ))} {st0 sta : PState}
    (h : processChunksWithHistory upload create_caption task_name video_filename as st0
      = (sta, none)) :
    captionCalls upload create_caption task_name video_filename (as ++ bs) st0
      = captionCalls upload create_caption task_name video_filename as st0
        ++ captionCalls upload create_caption task_name video_filename bs sta := by
  induction as generalizing st0 with
  | nil =>
    simp only [processChunksWithHistory, Prod.mk.injEq] at h
    rw [List.nil_append, h.1]
    rfl
  | cons a as ih =>
    cases hpc : processChunk upload create_caption task_name video_filename st0 a with
    | ok st1 =>
      rw [run_cons_ok upload create_caption task_name video_filename hpc] at h
      rw [List.cons_append, captionCalls_cons_ok upload create_caption task_name video_filename hpc,
        captionCalls_cons_ok upload create_caption task_name video_filename hpc, ih h,
        List.cons_append]
    | error e =>
      rw [run_cons_err upload create_caption task_name video_filename hpc] at h
      simp at h

end PipelineLemmas

/-- Claim C2: after a successful run of `process_video_with_history` over
`k` chunks with history capacity `N = 5`, the caption history has length
`min(k, N)` and holds exactly the captions of the `min(k, N)` most recently
processed chunks, in chunk-processing (insertion) order, oldest first —
i.e. the final suffix of the full caption sequence, which is strict FIFO
eviction on overflow. -/
theorem history_bound_invariant
    (upload : String → String → Except String (String × String))
    (create_caption : List ImageInfo → List String → String → Except String String)
    (task_name video_filename : String)
    (cs : List (List (String × Nat × ℚ))) (st : PState)
    (hrun : processChunksWithHistory upload create_caption task_name video_filename cs initState
      = (st, none)) :
    st.all_metadata.length = cs.length ∧
    st.history.length = min cs.length 5 ∧
    st.history = lastN 5 (st.all_metadata.map (fun r => r.chunk_caption)) := by
  obtain ⟨recs, hm, hl, hh, -⟩ :=
    run_ok_inv upload create_caption task_name video_filename (by simp [initState]) hrun
  have hm' : st.all_metadata = recs := by
    rw [hm]; simp [initState]
  have hh' : st.history = lastN 5 (recs.map (fun r => r.chunk_caption)) := by
    rw [hh]; simp [initState]
  refine ⟨by rw [hm', hl], ?_, by rw [hm', hh']⟩
  rw [hh', lastN_length]
  simp only [List.length_map]
  omega

/-- Claim C1: chunk captioning is strictly sequential — `captionCalls`
records, in order, the `list(history)` snapshot passed to each issued
`create_caption_by_gpt_with_history` call, and in a successful run there is
exactly one call per chunk, the call for chunk `k+1` (0-based index `k`)
being issued from the state reached after chunks `1..k`.  Its history
snapshot is exactly the captions of the `min(k, 5)` immediately preceding
chunks, oldest first (`lastN 5` of the first `k` captions); with capacity 5
and 7 chunks this means the call for chunk 7 receives exactly the captions
of chunks 2-6, not chunk 1 and not chunk 7 itself. -/
theorem history_snapshot_at_call
    (upload : String → String → Except String (String × String))
    (create_caption : List ImageInfo → List String → String → Except String String)
    (task_name video_filename : String)
    (cs : List (List (String × Nat × ℚ))) (st : PState)
    (hrun : processChunksWithHistory upload create_caption task_name video_filename cs initState
      = (st, none)) (k : Nat) (hk : k < cs.length) :
    (captionCalls upload create_caption task_name video_filename cs initState).length
      = cs.length ∧
    ∃ stk, processChunksWithHistory upload create_caption task_name video_filename
        (cs.take k) initState = (stk, none) ∧
      (captionCalls upload create_caption task_name video_filename cs initState)[k]?
        = some stk.history ∧
      stk.history = lastN 5 ((st.all_metadata.map (fun r => r.chunk_caption)).take k) := by
  have hsplit : processChunksWithHistory upload create_caption task_name video_filename
      (cs.take k ++ cs.drop k) initState = (st, none) := by
    rw [List.take_append_drop]; exact hrun
  obtain ⟨stk, h1, h2⟩ :=
    run_append_ok_split upload create_caption task_name video_filename hsplit
  refine ⟨captionCalls_length_ok upload create_caption task_name video_filename hrun,
    stk, h1, ?_, ?_⟩
  · have hc : captionCalls upload create_caption task_name video_filename cs initState
        = captionCalls upload create_caption task_name video_filename (cs.take k) initState
          ++ captionCalls upload create_caption task_name video_filename (cs.drop k) stk := by
      conv_lhs => rw [← List.take_append_drop k cs]
      exact captionCalls_append_ok upload create_caption task_name video_filename h1
    have hlen1 : (captionCalls upload create_caption task_name video_filename
        (cs.take k) initState).length = k := by
      rw [captionCalls_length_ok upload create_caption task_name video_filename h1,
        List.length_take]
      omega
    rw [hc, List.getElem?_append_right (by omega), hlen1]
    have hdrop : cs.drop k = cs[k] :: cs.drop (k + 1) := List.drop_eq_getElem_cons hk
    rw [hdrop] at h2
    cases hpc : processChunk upload create_caption task_name video_filename stk cs[k] with
    | error e =>
      rw [run_cons_err upload create_caption task_name video_filename hpc] at h2
      simp at h2
    | ok st1 =>
      rw [hdrop, captionCalls_cons_ok upload create_caption task_name video_filename hpc]
      simp
  · obtain ⟨recs, hm, hl, hh, hh5⟩ :=
      run_ok_inv upload create_caption task_name video_filename (by simp [initState]) h1
    obtain ⟨recs2, hm2, -, -, -⟩ :=
      run_ok_inv upload create_caption task_name video_filename hh5 h2
    have hmk : stk.all_metadata = recs := by rw [hm]; simp [initState]
    have hrl : recs.length = k := by
      rw [hl, List.length_take]; omega
    have htake : (st.all_metadata.map (fun r => r.chunk_caption)).take k
        = recs.map (fun r => r.chunk_caption) := by
      rw [hm2, hmk]
      rw [List.map_append, List.take_append_of_le_length (by simp [hrl])]
      rw [List.take_of_length_le (by simp [hrl])]
    rw [htake, hh]
    simp [initState]

/-- Claim C5: chunk processing is all-or-nothing — if any frame upload or
the captioning call raises for the chunk following a successful prefix,
the run returns with exactly the state reached after that prefix: neither
`all_metadata` nor `history` carries any partial record or partial caption
of the failed chunk (the two appends happen only after both external calls
return). -/
theorem chunk_atomicity
    (upload : String → String → Except String (String × String))
    (create_caption : List ImageInfo → List String → String → Except String String)
    (task_name video_filename : String)
    (pre : List (List (String × Nat × ℚ))) (ch : List (String × Nat × ℚ))
    (rest : List (List (String × Nat × ℚ))) (st0 stk : PState) (e : String)
    (hpre : processChunksWithHistory upload create_caption task_name video_filename pre st0
      = (stk, none))
    (hfail : processChunk upload create_caption task_name video_filename stk ch = .error e) :
    processChunksWithHistory upload create_caption task_name video_filename
      (pre ++ ch :: rest) st0 = (stk, some e) := by
  rw [run_append_ok upload create_caption task_name video_filename hpre,
    run_cons_err upload create_caption task_name video_filename hfail]

/-- Claim C4 (amended): when uploading a frame of chunk `k` or the
captioning call for chunk `k` raises, the chunk is not captioned and the
caption history is NOT mutated (no empty or placeholder entry is injected),
and the records of the chunks that did succeed are left intact — but the
run does NOT continue to the next chunk: the exception propagates, the loop
aborts, and the chunks after the failed one are never processed (the
result does not depend on them at all). -/
theorem failure_aborts_without_mutation
    (upload : String → String → Except String (String × String))
    (create_caption : List ImageInfo → List String → String → Except String String)
    (task_name video_filename : String)
    (pre : List (List (String × Nat × ℚ))) (ch : List (String × Nat × ℚ))
    (rest rest2 : List (List (String × Nat × ℚ))) (st0 stk : PState) (e : String)
    (hpre : processChunksWithHistory upload create_caption task_name video_filename pre st0
      = (stk, none))
    (hfail : processChunk upload create_caption task_name video_filename stk ch = .error e) :
    (processChunksWithHistory upload create_caption task_name video_filename
        (pre ++ ch :: rest) st0).1.history = stk.history ∧
    (processChunksWithHistory upload create_caption task_name video_filename
        (pre ++ ch :: rest) st0).1.all_metadata = stk.all_metadata ∧
    (processChunksWithHistory upload create_caption task_name video_filename
        (pre ++ ch :: rest) st0).2 = some e ∧
    processChunksWithHistory upload create_caption task_name video_filename
        (pre ++ ch :: rest) st0
      = processChunksWithHistory upload create_caption task_name video_filename
        (pre ++ ch :: rest2) st0 := by
  have h1 : processChunksWithHistory upload create_caption task_name video_filename
      (pre ++ ch :: rest) st0 = (stk, some e) := by
    rw [run_append_ok upload create_caption task_name video_filename hpre,
      run_cons_err upload create_caption task_name video_filename hfail]
  have h2 : processChunksWithHistory upload create_caption task_name video_filename
      (pre ++ ch :: rest2) st0 = (stk, some e) := by
    rw [run_append_ok upload create_caption task_name video_filename hpre,
      run_cons_err upload create_caption task_name video_filename hfail]
  rw [h1, h2]
  exact ⟨rfl, rfl, rfl, rfl⟩

/-- A concrete upload double that always succeeds. -/
def uploadOk : String → String → Except String (String × String) :=
  fun _ blob_name => .ok ("https://blob.example/" ++ blob_name, "sig")

/-- A concrete captioner double returning a caption derived from the first
frame number of the chunk; always succeeds. -/
def captionByFrame : List ImageInfo → List String → String → Except String String :=
  fun image_infos _ _ =>
    .ok ("cap" ++ toString (image_infos.headD ⟨"", 0, 0⟩).frame_number)

/-- A concrete captioner double that fails exactly on the chunk whose first
frame number is 1. -/
def captionFailOn1 : List ImageInfo → List String → String → Except String String :=
  fun image_infos _ _ =>
    if (image_infos.headD ⟨"", 0, 0⟩).frame_number = 1 then .error "AnalysisCallError"
    else .ok ("cap" ++ toString (image_infos.headD ⟨"", 0, 0⟩).frame_number)

/-- A concrete upload double that fails exactly on the frame file `bad.jpg`. -/
def uploadFailOnBad : String → String → Except String (String × String) :=
  fun file_path blob_name =>
    if file_path = "bad.jpg" then .error "MaterializationError"
    else .ok ("https://blob.example/" ++ blob_name, "sig")

/-- Seven one-frame chunks, chunk `k` holding frame number `k`. -/
def chunks7 : List (List (String × Nat × ℚ)) :=
  [[("f1.jpg", 1, 0)], [("f2.jpg", 2, 5)], [("f3.jpg", 3, 10)], [("f4.jpg", 4, 15)],
   [("f5.jpg", 5, 20)], [("f6.jpg", 6, 25)], [("f7.jpg", 7, 30)]]

/-- Claim C4 counterexample: when the captioning call for chunk 1 raises,
the run does NOT continue to chunk 2 — it aborts with the exception and an
empty metadata document, even though chunk 2 on its own would succeed (as
the second conjunct shows). -/
theorem failed_chunk_aborts_run_cex :
    processChunksWithHistory uploadOk captionFailOn1 "task" "v.mp4"
      [[("f1.jpg", 1, 0)], [("f2.jpg", 2, 5)]] initState
      = (initState, some "AnalysisCallError") ∧
    processChunk uploadOk captionFailOn1 "task" "v.mp4" initState [("f2.jpg", 2, 5)]
      = .ok { history := ["cap2"],
              all_metadata := [{ video_filename := some "v.mp4",
                                 frames := [{ frame_number := some 2, timestamp := 5,
                                              frame_url_with_sas :=
                                                some "https://blob.example/images/f2.jpg?sig" }],
                                 chunk_caption := "cap2" }] } := by
  constructor <;> rfl

/-- Witness for `history_snapshot_at_call`: in a successful 7-chunk run
with captions `cap1 ... cap7`, the 7th captioning call (index 6) receives
exactly `[cap2, cap3, cap4, cap5, cap6]` — the captions of chunks 2-6. -/
theorem history_snapshot_at_call_witness :
    ((captionCalls uploadOk captionByFrame "task" "v.mp4" chunks7 initState).length
        = chunks7.length ∧
      ∃ stk, processChunksWithHistory uploadOk captionByFrame "task" "v.mp4"
          (chunks7.take 6) initState = (stk, none) ∧
        (captionCalls uploadOk captionByFrame "task" "v.mp4" chunks7 initState)[6]?
          = some stk.history ∧
        stk.history = lastN 5
          ((((processChunksWithHistory uploadOk captionByFrame "task" "v.mp4" chunks7
              initState).1.all_metadata).map (fun r => r.chunk_caption)).take 6)) ∧
    lastN 5 ((((processChunksWithHistory uploadOk captionByFrame "task" "v.mp4" chunks7
        initState).1.all_metadata).map (fun r => r.chunk_caption)).take 6)
      = ["cap2", "cap3", "cap4", "cap5", "cap6"] :=
  ⟨history_snapshot_at_call uploadOk captionByFrame "task" "v.mp4" chunks7
      (processChunksWithHistory uploadOk captionByFrame "task" "v.mp4" chunks7 initState).1
      (by decide) 6 (by decide),
    by decide⟩

/-- Witness for `history_bound_invariant`: a successful 3-chunk run leaves
`len(history) = min(3, 5) = 3` and history `[cap1, cap2, cap3]` equal to
the full caption sequence. -/
theorem history_bound_invariant_witness :
    ((processChunksWithHistory uploadOk captionByFrame "task" "v.mp4" (chunks7.take 3)
        initState).1.all_metadata.length = (chunks7.take 3).length ∧
      (processChunksWithHistory uploadOk captionByFrame "task" "v.mp4" (chunks7.take 3)
        initState).1.history.length = min (chunks7.take 3).length 5 ∧
      (processChunksWithHistory uploadOk captionByFrame "task" "v.mp4" (chunks7.take 3)
        initState).1.history
        = lastN 5 ((processChunksWithHistory uploadOk captionByFrame "task" "v.mp4"
            (chunks7.take 3) initState).1.all_metadata.map (fun r => r.chunk_caption))) ∧
    (processChunksWithHistory uploadOk captionByFrame "task" "v.mp4" (chunks7.take 3)
        initState).1.history = ["cap1", "cap2", "cap3"] :=
  ⟨history_bound_invariant uploadOk captionByFrame "task" "v.mp4" (chunks7.take 3)
      (processChunksWithHistory uploadOk captionByFrame "task" "v.mp4" (chunks7.take 3)
        initState).1 (by decide),
    by decide⟩

/-- Witness for `chunk_atomicity`: chunk 1 succeeds, the upload of chunk
2's frame `bad.jpg` fails, and the run ends in exactly the post-chunk-1
state, with the error. -/
theorem chunk_atomicity_witness :
    processChunksWithHistory uploadFailOnBad captionByFrame "task" "v.mp4"
      ([[("f1.jpg", 1, 0)]] ++ [("bad.jpg", 2, 5)] :: [[("f3.jpg", 3, 10)]]) initState
      = ((processChunksWithHistory uploadFailOnBad captionByFrame "task" "v.mp4"
          [[("f1.jpg", 1, 0)]] initState).1, some "MaterializationError") :=
  chunk_atomicity uploadFailOnBad captionByFrame "task" "v.mp4"
    [[("f1.jpg", 1, 0)]] [("bad.jpg", 2, 5)] [[("f3.jpg", 3, 10)]] initState
    (processChunksWithHistory uploadFailOnBad captionByFrame "task" "v.mp4"
      [[("f1.jpg", 1, 0)]] initState).1 "MaterializationError" (by decide) (by decide)

/-- Witness for `failure_aborts_without_mutation`: after chunk 1 succeeds
and chunk 2's upload fails, history and metadata equal the post-chunk-1
state and the outcome is identical whether or not a third chunk follows. -/
theorem failure_aborts_without_mutation_witness :
    ((processChunksWithHistory uploadFailOnBad captionByFrame "task" "v.mp4"
        ([[("f1.jpg", 1, 0)]] ++ [("bad.jpg", 2, 5)] :: [[("f3.jpg", 3, 10)]])
        initState).1.history
      = (processChunksWithHistory uploadFailOnBad captionByFrame "task" "v.mp4"
          [[("f1.jpg", 1, 0)]] initState).1.history ∧
    (processChunksWithHistory uploadFailOnBad captionByFrame "task" "v.mp4"
        ([[("f1.jpg", 1, 0)]] ++ [("bad.jpg", 2, 5)] :: [[("f3.jpg", 3, 10)]])
        initState).1.all_metadata
      = (processChunksWithHistory uploadFailOnBad captionByFrame "task" "v.mp4"
          [[("f1.jpg", 1, 0)]] initState).1.all_metadata ∧
    (processChunksWithHistory uploadFailOnBad captionByFrame "task" "v.mp4"
        ([[("f1.jpg", 1, 0)]] ++ [("bad.jpg", 2, 5)] :: [[("f3.jpg", 3, 10)]])
        initState).2 = some "MaterializationError" ∧
    processChunksWithHistory uploadFailOnBad captionByFrame "task" "v.mp4"
        ([[("f1.jpg", 1, 0)]] ++ [("bad.jpg", 2, 5)] :: [[("f3.jpg", 3, 10)]]) initState
      = processChunksWithHistory uploadFailOnBad captionByFrame "task" "v.mp4"
        ([[("f1.jpg", 1, 0)]] ++ [("bad.jpg", 2, 5)] :: []) initState) :=
  failure_aborts_without_mutation uploadFailOnBad captionByFrame "task" "v.mp4"
    [[("f1.jpg", 1, 0)]] [("bad.jpg", 2, 5)] [[("f3.jpg", 3, 10)]] [] initState
    (processChunksWithHistory uploadFailOnBad captionByFrame "task" "v.mp4"
      [[("f1.jpg", 1, 0)]] initState).1 "MaterializationError" (by decide) (by decide)

/-!
## Report generation (`save_final_report`, result_manager.py lines 67-96;
`generate_final_report`, azure_services.py lines 182-217)

```python
def save_final_report(metadata, result_dir, video_filename, task_name="battery exchange"):
    filtered_data = copy.deepcopy(metadata)
    for obj in filtered_data:
        obj.pop('video_filename', None)
        for frame in obj['frames']:
            frame.pop('frame_number', None)
            frame.pop('frame_url_with_sas', None)
    report_content = generate_final_report(filtered_data, task_name)
    report_path = os.path.join(result_dir, f"{video_filename}_report.md")
    with open(report_path, 'w', encoding='utf-8') as f:
        f.write(report_content)
    return report_path
```

`generate_final_report` builds a prompt and invokes the external
summarization capability on `str(filtered_data)` — it contains no check of
any kind on the document, in particular no emptiness check, and the
repository defines no `SynthesisError`.  The capability is a function
parameter `llm`.  `copy.deepcopy` followed by key-`pop`s is value semantics
here: redaction operates on a copy, the caller's `metadata` value is not
mutated; a popped key is an `Option` field set to `none`.  Writing the
report file is modelled by returning `(report_path, report_content)`.
-/

/-- Model of `generate_final_report`: invoke the summarization capability on the
(filtered) document — the code performs no emptiness or validity check. -/
def generate_final_report (llm : List ChunkDict → String → String)
    (filtered_data : List ChunkDict) (task_name : String) : String :=
  llm filtered_data task_name

/-- The redaction applied to one record by `save_final_report`'s loop:
`obj.pop('video_filename')` and, for each frame, `frame.pop('frame_number')`
and `frame.pop('frame_url_with_sas')`. -/
def stripChunk (obj : ChunkDict) : ChunkDict :=
  { obj with
    video_filename := none
    frames := obj.frames.map (fun frame =>
      { frame with frame_number := none, frame_url_with_sas := none }) }

/-- Model of `save_final_report`: deep-copy + redact, generate, write; returns the
report path and the written content. -/
def save_final_report (llm : List ChunkDict → String → String) (metadata : List ChunkDict)
    (result_dir video_filename task_name : String) : String × String :=
  let filtered_data := metadata.map stripChunk
  let report_content := generate_final_report llm filtered_data task_name
  (result_dir ++ "/" ++ video_filename ++ "_report.md", report_content)

/-- Claim C9: the document handed to the summarization capability by
`save_final_report` is a field-stripped copy of `metadata`: record for
record, `video_filename` is absent, every frame descriptor lacks
`frame_number` and `frame_url_with_sas` but keeps its `timestamp`, and
`chunk_caption` is kept.  The redaction operates on a deep copy
(`copy.deepcopy` in the source, value semantics in this embedding), so the
original `metadata` value is unchanged. -/
theorem redaction_view (llm : List ChunkDict → String → String)
    (metadata : List ChunkDict) (result_dir video_filename task_name : String) :
    (save_final_report llm metadata result_dir video_filename task_name).2
      = generate_final_report llm (metadata.map stripChunk) task_name ∧
    (metadata.map stripChunk).length = metadata.length ∧
    (∀ k : Nat, (metadata.map stripChunk)[k]? = (metadata[k]?).map (fun obj =>
      { video_filename := none
        frames := obj.frames.map (fun f =>
          { frame_number := none, timestamp := f.timestamp, frame_url_with_sas := none })
        chunk_caption := obj.chunk_caption })) := by
  refine ⟨rfl, by simp, fun k => ?_⟩
  rw [List.getElem?_map]
  cases metadata[k]? with
  | none => rfl
  | some obj => rfl

/-- Claim C8 counterexample: an empty metadata document is not rejected —
`save_final_report` invokes the summarization capability on the empty
document and writes the report file with whatever the capability returns;
no `SynthesisError` is raised (none exists in the code). -/
theorem empty_document_report_written_cex :
    save_final_report (fun _ _ => "REPORT") [] "results/run1" "v.mp4" "task"
      = ("results/run1/v.mp4_report.md", "REPORT") := rfl

/-- Claim C8 (amended): neither `generate_final_report` nor
`save_final_report` checks the document for emptiness; on a metadata
document with zero chunk records, the summarization capability is invoked
on the empty (redacted) document and the report file is written as usual —
the code never raises a `SynthesisError` (no such error exists). -/
theorem empty_document_no_check (llm : List ChunkDict → String → String)
    (result_dir video_filename task_name : String) :
    generate_final_report llm [] task_name = llm [] task_name ∧
    save_final_report llm [] result_dir video_filename task_name
      = (result_dir ++ "/" ++ video_filename ++ "_report.md", llm [] task_name) :=
  ⟨rfl, rfl⟩

/-!
## Call-site argument binding (`app.py` lines 152-164)

app.py invokes

```python
process_video_with_history(video_path=..., output_dir=..., interval=...,
                           chunk_size=..., task_name=...,
                           custom_analysis_prompt=...)
save_final_report(metadata, result_dir, uploaded_file.name, task_name,
                  custom_report_prompt...)
```

against the signatures

```python
def process_video_with_history(video_path, output_dir, interval=5, chunk_size=5,
                               task_name="battery exchange"): ...
def save_final_report(metadata, result_dir, video_filename, task_name="battery exchange"): ...
```

Python binds call arguments to the callee's parameter list before the
function body runs; `pyBind` models that binding step: a keyword that names
no parameter, or more positional arguments than parameters, raises
`TypeError` — so the callee's body is never entered.
-/

/-- A Python function signature: ordered parameter names plus how many of
the trailing parameters carry default values. -/
structure PySignature where
  params : List String
  defaults : Nat

/-- Python's call-to-parameter binding check for a call with `positional`
positional arguments and the given keyword-argument names. -/
def pyBind (sig : PySignature) (positional : Nat) (keywords : List String) :
    Except String Unit :=
  if sig.params.length < positional then
    .error "TypeError: too many positional arguments"
  else if keywords.any (fun kw => !(sig.params.contains kw)) then
    .error "TypeError: unexpected keyword argument"
  else if keywords.any (fun kw => (sig.params.take positional).contains kw) then
    .error "TypeError: multiple values for argument"
  else if !((sig.params.take (sig.params.length - sig.defaults)).all
      (fun p => (sig.params.take positional).contains p || keywords.contains p)) then
    .error "TypeError: missing required argument"
  else .ok ()

/-- The signature of `process_video_with_history` (video_processor.py line
150): five parameters, the last three with defaults. -/
def process_video_with_history_params : PySignature :=
  ⟨["video_path", "output_dir", "interval", "chunk_size", "task_name"], 3⟩

/-- The signature of `save_final_report` (result_manager.py line 67): four
parameters, the last with a default. -/
def save_final_report_params : PySignature :=
  ⟨["metadata", "result_dir", "video_filename", "task_name"], 1⟩

/-- Claim C10: both calls on the video-processing path of app.py fail
Python's argument binding with `TypeError` — the call to
`process_video_with_history` passes the undeclared keyword argument
`custom_analysis_prompt`, and the call to `save_final_report` passes five
positional arguments to a four-parameter function.  Binding precedes body
execution, so `process_video_with_history` never starts: the `TypeError`
is raised before any chunk is processed (and `save_final_report` would
fail the same way if reached). -/
theorem app_calls_raise_type_error :
    pyBind process_video_with_history_params 0
      ["video_path", "output_dir", "interval", "chunk_size", "task_name",
        "custom_analysis_prompt"]
      = .error "TypeError: unexpected keyword argument" ∧
    pyBind save_final_report_params 5 []
      = .error "TypeError: too many positional arguments" := by
  constructor <;> rfl
